import Mathlib

/-!
Shallow embedding of the `sms_receiver` webhook service (Go).

The repository contains one primary source file `main.go` (handler
`handleSMS` with a two-pass extraction strategy and gateway `saveSMS`)
and two further variants: an `smsHandler` that additionally enforces
maximum field lengths and stamps `time.Now().UTC()`, and the SQL schema
of the `sms_messages` table.

Form bodies are modelled as strings of characters standing for bytes
(all inputs of interest are ASCII, where Go's byte-level percent
decoding and this character-level model coincide).  The database is
modelled as the list of rows of `sms_messages` plus a boolean telling
whether the gateway's INSERT succeeds; wall-clock time is a natural
number tagged with the Go `time.Location` of the value.
-/

namespace SMSReceiver

/-- Decode one hexadecimal digit, as Go's `unhex`. -/
def hexDigit (c : Char) : Option Nat :=
  if '0' ≤ c ∧ c ≤ '9' then some (c.toNat - '0'.toNat)
  else if 'a' ≤ c ∧ c ≤ 'f' then some (c.toNat - 'a'.toNat + 10)
  else if 'A' ≤ c ∧ c ≤ 'F' then some (c.toNat - 'A'.toNat + 10)
  else none

/-- Go `net/url.QueryUnescape` on a character list: `+` becomes space,
`%XY` with two hex digits becomes the byte `0xXY`, a `%` not followed by
two hex digits is an `EscapeError` (`none`); every other character is
kept. -/
def unescapeQueryAux : List Char → Option (List Char)
  | [] => some []
  | '%' :: h1 :: h2 :: rest =>
    match hexDigit h1, hexDigit h2 with
    | some a, some b => (unescapeQueryAux rest).map (fun cs => Char.ofNat (16 * a + b) :: cs)
    | _, _ => none
  | '%' :: _ => none
  | '+' :: rest => (unescapeQueryAux rest).map (fun cs => ' ' :: cs)
  | c :: rest => (unescapeQueryAux rest).map (fun cs => c :: cs)

/-- Go `net/url.QueryUnescape`. -/
def queryUnescape (s : String) : Option String :=
  (unescapeQueryAux s.data).map (fun cs => String.mk cs)

/-- Model of `strings.Cut(s, sep)` for a one-character separator: the part before
the first occurrence and the part after it (all of `s` and `[]` when
absent, as in Go where `after` is then empty). -/
def cutOn (sep : Char) : List Char → List Char × List Char
  | [] => ([], [])
  | c :: rest =>
    if c = sep then ([], rest)
    else
      let p := cutOn sep rest
      (c :: p.1, p.2)

/-- Split on a separator character; Go's `url.parseQuery` loop of
`strings.Cut(query, "&")` visits exactly these segments. -/
def splitOnChar (sep : Char) : List Char → List (List Char)
  | [] => [[]]
  | c :: rest =>
    let r := splitOnChar sep rest
    if c = sep then [] :: r
    else
      match r with
      | [] => [[c]]
      | s :: ss => (c :: s) :: ss

/-- Go `net/url.parseQuery`: returns the list of decoded key/value
pairs in order together with an error flag.  A segment containing `;`
or failing `QueryUnescape` sets the flag and is skipped; empty segments
are skipped silently. -/
def parseQuery (s : String) : List (String × String) × Bool :=
  (splitOnChar '&' s.data).foldl
    (fun acc seg =>
      if seg.contains ';' then (acc.1, true)
      else if seg = [] then acc
      else
        let p := cutOn '=' seg
        match queryUnescape (String.mk p.1), queryUnescape (String.mk p.2) with
        | some key, some val => (acc.1 ++ [(key, val)], acc.2)
        | _, _ => (acc.1, true))
    ([], false)

/-- Go `url.Values.Get` and `r.PostFormValue`: first value stored under the
key, `""` when absent. -/
def getValue (pairs : List (String × String)) (key : String) : String :=
  match pairs.find? (fun p => p.1 == key) with
  | some p => p.2
  | none => ""

/-- Go `r.ParseForm` on the POST body: the parsed pairs, or `none` when
`url.ParseQuery` reported an error (the handler then bails out and the
partially parsed values are never consulted). -/
def parseForm (rawBody : String) : Option (List (String × String)) :=
  let r := parseQuery rawBody
  if r.2 then none else some r.1

/-- Model of the call `strings.TrimPrefix(s, "?")`: drop one leading `?` if present. -/
def stripLeadingQuestion (s : String) : String :=
  match s.data with
  | '?' :: rest => String.mk rest
  | _ => s

/-- The case fallback of `handleSMS`: the exact provider key, then the
lower-cased variant if the first came out empty. -/
def lookup2 (pairs : List (String × String)) (k1 k2 : String) : String :=
  let v := getValue pairs k1
  if v = "" then getValue pairs k2 else v

/-- The `time.Location` carried by a Go `time.Time` value. -/
inductive GoLoc where
  | Local : GoLoc
  | UTC : GoLoc
deriving DecidableEq, Repr

/-- A Go `time.Time`: an instant (wall clock, abstracted to `Nat`)
together with its location. -/
structure GoTime where
  wall : Nat
  loc : GoLoc
deriving DecidableEq, Repr

/-- Go `time.Now()`: the current instant, in the local location. -/
def timeNow (wall : Nat) : GoTime := ⟨wall, GoLoc.Local⟩

/-- Go `t.UTC()`: the same instant with location UTC. -/
def GoTime.utc (t : GoTime) : GoTime := ⟨t.wall, GoLoc.UTC⟩

/-- The `SMSMessage` struct of `main.go`, also a row of the
`sms_messages` table (minus the auto-increment surrogate key). -/
structure SMSMessage where
  MessageSID : String
  FromNumber : String
  Body : String
  ReceivedAt : GoTime
deriving DecidableEq, Repr

/-- One structured log line emitted by the handler. -/
inductive LogEvent where
  | invalidForm : LogEvent
  | invalidBody : LogEvent
  | missingFields (messageSID fromNumber body : String) : LogEvent
  | dbSaveError : LogEvent
  | savedSMS (fromNumber body : String) : LogEvent
deriving DecidableEq, Repr

/-- An HTTP response: status, optional Content-Type header, body. -/
structure Response where
  status : Nat
  contentType : Option String
  body : String
deriving DecidableEq, Repr

/-- Go `http.Error(w, msg, code)`: plain-text response, message plus a
trailing newline. -/
def httpError (msg : String) (code : Nat) : Response :=
  ⟨code, some "text/plain; charset=utf-8", msg ++ "\n"⟩

/-- Observable outcome of one handler invocation: the response, the
record handed to the persistence gateway (if the INSERT was issued at
all), and the log lines. -/
structure HandlerResult where
  response : Response
  attempted : Option SMSMessage
  logs : List LogEvent
deriving DecidableEq, Repr

/-- The TwiML acknowledgment literal of `handleSMS`, whitespace exactly
as in the Go source. -/
def twimlResponse : String :=
  "<?xml version=\"1.0\" encoding=\"UTF-8\"?>\n<Response>\n    <Message>Message received! Thank you.</Message>\n</Response>"

/-- Lines 92–128 of `main.go`: validate presence, build the record with
`time.Now()`, call `saveSMS` (append to the table on success), answer.
All three extraction paths of `handleSMS` fall through to this code. -/
def validateAndSave (messageSID fromNumber body : String) (dbOk : Bool) (nowWall : Nat)
    (table : List SMSMessage) : HandlerResult × List SMSMessage :=
  if messageSID = "" ∨ fromNumber = "" ∨ body = "" then
    (⟨httpError "Missing required fields" 400, none,
      [LogEvent.missingFields messageSID fromNumber body]⟩, table)
  else
    let sms : SMSMessage := ⟨messageSID, fromNumber, body, timeNow nowWall⟩
    if dbOk then
      (⟨⟨200, some "application/xml", twimlResponse⟩, some sms,
        [LogEvent.savedSMS fromNumber body]⟩, table ++ [sms])
    else
      (⟨httpError "Failed to save message" 500, some sms, [LogEvent.dbSaveError]⟩, table)

/-- Function `handleSMS` of `main.go` (lines 36–129): parse the form, look each
field up under its provider key then its lower-cased variant, and if a
field is still empty re-parse the lowercase `body` field (one leading
`?` stripped) as a query string, filling only the still-empty fields. -/
def handleSMS (rawBody : String) (dbOk : Bool) (nowWall : Nat)
    (table : List SMSMessage) : HandlerResult × List SMSMessage :=
  match parseForm rawBody with
  | none =>
    (⟨httpError "Invalid form data" 400, none, [LogEvent.invalidForm]⟩, table)
  | some form =>
    let messageSID := lookup2 form "MessageSid" "messagesid"
    let fromNumber := lookup2 form "From" "from"
    let body := lookup2 form "Body" "body"
    if messageSID = "" ∨ fromNumber = "" ∨ body = "" then
      let bodyParam := getValue form "body"
      if bodyParam ≠ "" then
        match parseForm (stripLeadingQuestion bodyParam) with
        | none =>
          (⟨httpError "Invalid body parameter" 400, none, [LogEvent.invalidBody]⟩, table)
        | some parsed =>
          let messageSID := if messageSID = "" then lookup2 parsed "MessageSid" "messagesid" else messageSID
          let fromNumber := if fromNumber = "" then lookup2 parsed "From" "from" else fromNumber
          let body := if body = "" then lookup2 parsed "Body" "body" else body
          validateAndSave messageSID fromNumber body dbOk nowWall table
      else
        validateAndSave messageSID fromNumber body dbOk nowWall table
    else
      validateAndSave messageSID fromNumber body dbOk nowWall table

/-- The two extraction passes of `handleSMS` in isolation: the three
field values after lines 44–90 of `main.go`, or `none` when a form
parse failed (primary or secondary). -/
def extractFields (rawBody : String) : Option (String × String × String) :=
  match parseForm rawBody with
  | none => none
  | some form =>
    let messageSID := lookup2 form "MessageSid" "messagesid"
    let fromNumber := lookup2 form "From" "from"
    let body := lookup2 form "Body" "body"
    if messageSID = "" ∨ fromNumber = "" ∨ body = "" then
      let bodyParam := getValue form "body"
      if bodyParam ≠ "" then
        match parseForm (stripLeadingQuestion bodyParam) with
        | none => none
        | some parsed =>
          some (if messageSID = "" then lookup2 parsed "MessageSid" "messagesid" else messageSID,
            if fromNumber = "" then lookup2 parsed "From" "from" else fromNumber,
            if body = "" then lookup2 parsed "Body" "body" else body)
      else
        some (messageSID, fromNumber, body)
    else
      some (messageSID, fromNumber, body)

/-- Function `smsHandler` of the variant source (part_000): primary-keys-only
extraction, presence check, maximum-length check (body 1600, sender 15,
identifier 50), INSERT with `time.Now().UTC()`, plain-text success. -/
def smsHandler (rawBody : String) (dbOk : Bool) (nowWall : Nat)
    (table : List SMSMessage) : HandlerResult × List SMSMessage :=
  match parseForm rawBody with
  | none => (⟨httpError "Invalid form data" 400, none, []⟩, table)
  | some form =>
    let fromField := getValue form "From"
    let body := getValue form "Body"
    let messageSid := getValue form "MessageSid"
    if fromField = "" ∨ body = "" ∨ messageSid = "" then
      (⟨httpError "Missing required fields" 400, none, []⟩, table)
    else if body.length > 1600 ∨ fromField.length > 15 ∨ messageSid.length > 50 then
      (⟨httpError "Input length exceeded" 400, none, []⟩, table)
    else
      let timestamp := (timeNow nowWall).utc
      let sms : SMSMessage := ⟨messageSid, fromField, body, timestamp⟩
      if dbOk then
        (⟨⟨200, none, "Message stored successfully"⟩, some sms, []⟩, table ++ [sms])
      else
        (⟨httpError "Internal server error" 500, some sms, []⟩, table)

end SMSReceiver

namespace SMSReceiver

/-- Decomposition of `handleSMS`: when the two extraction passes
produce the triple `(m, f, b)`, the handler behaves as the shared
validate-and-save tail on that triple. -/
theorem handleSMS_extract_some {rawBody m f b : String} (dbOk : Bool) (nowWall : Nat)
    (table : List SMSMessage) (h : extractFields rawBody = some (m, f, b)) :
    handleSMS rawBody dbOk nowWall table = validateAndSave m f b dbOk nowWall table := by
  cases hp : parseForm rawBody with
  | none => simp [extractFields, hp] at h
  | some form =>
    simp only [extractFields, hp] at h
    simp only [handleSMS, hp]
    by_cases hmiss : lookup2 form "MessageSid" "messagesid" = "" ∨
        lookup2 form "From" "from" = "" ∨ lookup2 form "Body" "body" = ""
    · simp only [if_pos hmiss] at h ⊢
      by_cases hbp : getValue form "body" ≠ ""
      · simp only [if_pos hbp] at h ⊢
        cases hq : parseForm (stripLeadingQuestion (getValue form "body")) with
        | none => simp [hq] at h
        | some parsed =>
          simp only [hq, Option.some.injEq, Prod.mk.injEq] at h
          obtain ⟨rfl, rfl, rfl⟩ := h
          rfl
      · simp only [if_neg hbp, Option.some.injEq, Prod.mk.injEq] at h ⊢
        obtain ⟨rfl, rfl, rfl⟩ := h
        rfl
    · simp only [if_neg hmiss, Option.some.injEq, Prod.mk.injEq] at h ⊢
      obtain ⟨rfl, rfl, rfl⟩ := h
      rfl

/-- Decomposition of `handleSMS`: when an extraction pass fails to
parse, the handler answers 400, issues no INSERT and leaves the table
unchanged. -/
theorem handleSMS_extract_none {rawBody : String} (dbOk : Bool) (nowWall : Nat)
    (table : List SMSMessage) (h : extractFields rawBody = none) :
    (handleSMS rawBody dbOk nowWall table).1.response.status = 400
    ∧ (handleSMS rawBody dbOk nowWall table).1.attempted = none
    ∧ (handleSMS rawBody dbOk nowWall table).2 = table := by
  cases hp : parseForm rawBody with
  | none => simp [handleSMS, hp, httpError]
  | some form =>
    simp only [extractFields, hp] at h
    simp only [handleSMS, hp]
    by_cases hmiss : lookup2 form "MessageSid" "messagesid" = "" ∨
        lookup2 form "From" "from" = "" ∨ lookup2 form "Body" "body" = ""
    · simp only [if_pos hmiss] at h ⊢
      by_cases hbp : getValue form "body" ≠ ""
      · simp only [if_pos hbp] at h ⊢
        cases hq : parseForm (stripLeadingQuestion (getValue form "body")) with
        | none => simp [hq, httpError]
        | some parsed => simp [hq] at h
      · simp only [if_neg hbp] at h
        exact absurd h (by simp)
    · simp only [if_neg hmiss] at h
      exact absurd h (by simp)

/-- Helper: the double-key lookup returns the first key's value when
that value is non-empty. -/
theorem lookup2_of_ne {pairs : List (String × String)} {k1 : String} (k2 : String)
    (h : getValue pairs k1 ≠ "") : lookup2 pairs k1 k2 = getValue pairs k1 := by
  simp [lookup2, h]

/-- Helper: the validate-and-save tail on a triple with an empty
component. -/
theorem validateAndSave_missing {m f b : String} (dbOk : Bool) (nowWall : Nat)
    (table : List SMSMessage) (hmiss : m = "" ∨ f = "" ∨ b = "") :
    validateAndSave m f b dbOk nowWall table =
      (⟨httpError "Missing required fields" 400, none,
        [LogEvent.missingFields m f b]⟩, table) := by
  unfold validateAndSave
  rw [if_pos hmiss]

/-- Helper: the validate-and-save tail on a fully populated triple with
a working gateway. -/
theorem validateAndSave_valid_ok {m f b : String} (nowWall : Nat)
    (table : List SMSMessage) (hm : m ≠ "") (hf : f ≠ "") (hb : b ≠ "") :
    validateAndSave m f b true nowWall table =
      (⟨⟨200, some "application/xml", twimlResponse⟩,
        some ⟨m, f, b, timeNow nowWall⟩, [LogEvent.savedSMS f b]⟩,
       table ++ [⟨m, f, b, timeNow nowWall⟩]) := by
  unfold validateAndSave
  rw [if_neg (by simp [hm, hf, hb])]
  rfl

/-- Helper: the validate-and-save tail on a fully populated triple with
a failing gateway. -/
theorem validateAndSave_valid_fail {m f b : String} (nowWall : Nat)
    (table : List SMSMessage) (hm : m ≠ "") (hf : f ≠ "") (hb : b ≠ "") :
    validateAndSave m f b false nowWall table =
      (⟨httpError "Failed to save message" 500,
        some ⟨m, f, b, timeNow nowWall⟩, [LogEvent.dbSaveError]⟩, table) := by
  unfold validateAndSave
  rw [if_neg (by simp [hm, hf, hb])]
  rfl

/-- Helper: `smsHandler` with a parsed form and a missing field. -/
theorem smsHandler_missing {rawBody : String} (dbOk : Bool) (nowWall : Nat)
    (table : List SMSMessage) {form : List (String × String)}
    (hp : parseForm rawBody = some form)
    (hmiss : getValue form "From" = "" ∨ getValue form "Body" = ""
      ∨ getValue form "MessageSid" = "") :
    smsHandler rawBody dbOk nowWall table =
      (⟨httpError "Missing required fields" 400, none, []⟩, table) := by
  simp only [smsHandler, hp]
  rw [if_pos hmiss]

/-- Helper: `smsHandler` with a parsed form, no missing field, and an
oversized field. -/
theorem smsHandler_toolong {rawBody : String} (dbOk : Bool) (nowWall : Nat)
    (table : List SMSMessage) {form : List (String × String)}
    (hp : parseForm rawBody = some form)
    (hmiss : ¬(getValue form "From" = "" ∨ getValue form "Body" = ""
      ∨ getValue form "MessageSid" = ""))
    (hlen : (getValue form "Body").length > 1600 ∨ (getValue form "From").length > 15
      ∨ (getValue form "MessageSid").length > 50) :
    smsHandler rawBody dbOk nowWall table =
      (⟨httpError "Input length exceeded" 400, none, []⟩, table) := by
  simp only [smsHandler, hp]
  rw [if_neg hmiss, if_pos hlen]

/-- Helper: `smsHandler` on a valid request. -/
theorem smsHandler_valid {rawBody : String} (dbOk : Bool) (nowWall : Nat)
    (table : List SMSMessage) {form : List (String × String)}
    (hp : parseForm rawBody = some form)
    (hmiss : ¬(getValue form "From" = "" ∨ getValue form "Body" = ""
      ∨ getValue form "MessageSid" = ""))
    (hlen : ¬((getValue form "Body").length > 1600 ∨ (getValue form "From").length > 15
      ∨ (getValue form "MessageSid").length > 50)) :
    smsHandler rawBody dbOk nowWall table =
      (if dbOk then
        (⟨⟨200, none, "Message stored successfully"⟩,
          some ⟨getValue form "MessageSid", getValue form "From", getValue form "Body",
            (timeNow nowWall).utc⟩, []⟩,
         table ++ [⟨getValue form "MessageSid", getValue form "From", getValue form "Body",
            (timeNow nowWall).utc⟩])
      else
        (⟨httpError "Internal server error" 500,
          some ⟨getValue form "MessageSid", getValue form "From", getValue form "Body",
            (timeNow nowWall).utc⟩, []⟩, table)) := by
  simp only [smsHandler, hp]
  rw [if_neg hmiss, if_neg hlen]

/-- Claim C1 (counterexample): on the spec's own example body
`body=%3FMessageSid%3DSM9%26From%3D%2B1555%26Body%3DHi` the handler
does NOT store `(SM9, +1555, Hi)`: it stores `from_number = " 1555"`
(the nested `+` query-decodes to a space) and, because the primary pass
already filled `Body` from the lowercase `body` field and fallback
values never overwrite it, `body` is the entire nested string.  Direct
supply of the three fields stores `(SM9, +1555, Hi)`, so the example is
also not equivalent to direct supply. -/
theorem fallback_example_differs_cex :
    ((handleSMS "body=%3FMessageSid%3DSM9%26From%3D%2B1555%26Body%3DHi" true 0 []).1.attempted.map
      (fun sms => (sms.MessageSID, sms.FromNumber, sms.Body)))
      = some ("SM9", " 1555", "?MessageSid=SM9&From=+1555&Body=Hi")
    ∧ ((handleSMS "MessageSid=SM9&From=%2B1555&Body=Hi" true 0 []).1.attempted.map
      (fun sms => (sms.MessageSID, sms.FromNumber, sms.Body)))
      = some ("SM9", "+1555", "Hi")
    ∧ (some ("SM9", " 1555", "?MessageSid=SM9&From=+1555&Body=Hi")
        : Option (String × String × String)) ≠ some ("SM9", "+1555", "Hi") := by
  exact ⟨rfl, rfl, by decide⟩

/-- Claim C1 (amended): the example request succeeds (status 200) but
the stored record is `message_sid = "SM9"`, `from_number = " 1555"`,
and `body` equal to the raw nested string
`?MessageSid=SM9&From=+1555&Body=Hi`: the secondary pass fills only the
fields still empty after the primary pass, and the lowercase `body`
form field itself already filled the body slot in the primary pass. -/
theorem fallback_example_actual :
    (handleSMS "body=%3FMessageSid%3DSM9%26From%3D%2B1555%26Body%3DHi" true 0 []).1.response.status
      = 200
    ∧ (handleSMS "body=%3FMessageSid%3DSM9%26From%3D%2B1555%26Body%3DHi" true 0 []).1.attempted
      = some ⟨"SM9", " 1555", "?MessageSid=SM9&From=+1555&Body=Hi", timeNow 0⟩
    ∧ (handleSMS "body=%3FMessageSid%3DSM9%26From%3D%2B1555%26Body%3DHi" true 0 []).2
      = [⟨"SM9", " 1555", "?MessageSid=SM9&From=+1555&Body=Hi", timeNow 0⟩] := by
  exact ⟨rfl, rfl, rfl⟩

/-- Claim C2: an INSERT is issued if and only if the two extraction
passes succeeded and produced three non-empty fields; any record handed
to the gateway has all three fields non-empty; on every error exit the
table is unchanged; and the table either stays unchanged or grows by
exactly the one attempted, fully populated row. -/
theorem write_iff_validated (rawBody : String) (dbOk : Bool) (nowWall : Nat)
    (table : List SMSMessage) :
    ((handleSMS rawBody dbOk nowWall table).1.attempted.isSome ↔
      ∃ m f b, extractFields rawBody = some (m, f, b) ∧ m ≠ "" ∧ f ≠ "" ∧ b ≠ "")
    ∧ (∀ sms, (handleSMS rawBody dbOk nowWall table).1.attempted = some sms →
        sms.MessageSID ≠ "" ∧ sms.FromNumber ≠ "" ∧ sms.Body ≠ "")
    ∧ ((handleSMS rawBody dbOk nowWall table).1.attempted = none →
        (handleSMS rawBody dbOk nowWall table).2 = table)
    ∧ ((handleSMS rawBody dbOk nowWall table).2 = table ∨
        ∃ sms, (handleSMS rawBody dbOk nowWall table).1.attempted = some sms ∧
          sms.MessageSID ≠ "" ∧ sms.FromNumber ≠ "" ∧ sms.Body ≠ "" ∧
          (handleSMS rawBody dbOk nowWall table).2 = table ++ [sms]) := by
  cases hx : extractFields rawBody with
  | none =>
    obtain ⟨h1, h2, h3⟩ := handleSMS_extract_none dbOk nowWall table hx
    rw [h2]
    refine ⟨?_, ?_, fun _ => h3, Or.inl h3⟩
    · constructor
      · intro h
        exact absurd h (by decide)
      · rintro ⟨m, f, b, hx', -⟩
        exact Option.noConfusion hx'
    · intro sms hs
      exact Option.noConfusion hs
  | some mfb =>
    obtain ⟨m, f, b⟩ := mfb
    rw [handleSMS_extract_some dbOk nowWall table hx]
    by_cases hmiss : m = "" ∨ f = "" ∨ b = ""
    · rw [validateAndSave_missing dbOk nowWall table hmiss]
      refine ⟨?_, ?_, fun _ => rfl, Or.inl rfl⟩
      · constructor
        · intro h
          simp at h
        · rintro ⟨m', f', b', hx', hm', hf', hb'⟩
          injection hx' with h
          injection h with h1 h2
          injection h2 with h2 h3
          rcases hmiss with h | h | h
          · exact (hm' (h1 ▸ h)).elim
          · exact (hf' (h2 ▸ h)).elim
          · exact (hb' (h3 ▸ h)).elim
      · intro sms hs
        exact Option.noConfusion hs
    · push_neg at hmiss
      obtain ⟨hm, hf, hb⟩ := hmiss
      cases dbOk with
      | true =>
        rw [validateAndSave_valid_ok nowWall table hm hf hb]
        refine ⟨?_, ?_, ?_, Or.inr ⟨⟨m, f, b, timeNow nowWall⟩, rfl, hm, hf, hb, rfl⟩⟩
        · exact ⟨fun _ => ⟨m, f, b, rfl, hm, hf, hb⟩, fun _ => rfl⟩
        · intro sms hs
          injection hs with h
          subst h
          exact ⟨hm, hf, hb⟩
        · intro hnone
          exact Option.noConfusion hnone
      | false =>
        rw [validateAndSave_valid_fail nowWall table hm hf hb]
        refine ⟨?_, ?_, fun _ => rfl, Or.inl rfl⟩
        · exact ⟨fun _ => ⟨m, f, b, rfl, hm, hf, hb⟩, fun _ => rfl⟩
        · intro sms hs
          injection hs with h
          subst h
          exact ⟨hm, hf, hb⟩

/-- Claim C2 witness: the empty request issues no INSERT and leaves an
empty table empty. -/
theorem write_iff_validated_witness :
    (handleSMS "" true 0 []).2 = ([] : List SMSMessage) :=
  (write_iff_validated "" true 0 []).2.2.1 rfl

/-- Claim C3: when the two extraction passes leave some required field
empty, the handler answers 400 "Missing required fields", issues no
INSERT, leaves the table unchanged, and logs the three extracted field
values (the empty ones showing exactly which were missing). -/
theorem missing_fields_rejected (rawBody : String) (dbOk : Bool) (nowWall : Nat)
    (table : List SMSMessage) (m f b : String)
    (hx : extractFields rawBody = some (m, f, b)) (hmiss : m = "" ∨ f = "" ∨ b = "") :
    (handleSMS rawBody dbOk nowWall table).1.response = httpError "Missing required fields" 400
    ∧ (handleSMS rawBody dbOk nowWall table).1.attempted = none
    ∧ (handleSMS rawBody dbOk nowWall table).2 = table
    ∧ (handleSMS rawBody dbOk nowWall table).1.logs = [LogEvent.missingFields m f b] := by
  rw [handleSMS_extract_some dbOk nowWall table hx,
    validateAndSave_missing dbOk nowWall table hmiss]
  exact ⟨rfl, rfl, rfl, rfl⟩

/-- Claim C3 witness: a request supplying only `From` is rejected with
status 400 and no write. -/
theorem missing_fields_rejected_witness :
    (handleSMS "From=x" true 0 []).1.response.status = 400
    ∧ (handleSMS "From=x" true 0 []).2 = ([] : List SMSMessage) := by
  obtain ⟨h1, -, h3, -⟩ :=
    missing_fields_rejected "From=x" true 0 [] "" "x" "" rfl (Or.inl rfl)
  exact ⟨by rw [h1]; rfl, h3⟩

/-- Claim C4: when the triple was extracted and validated but the
gateway's INSERT fails, the handler answers 500 with the generic
message "Failed to save message", logs the failure, and leaves the
table unchanged (no partial row); the model makes exactly one gateway
call, so nothing is retried. -/
theorem persistence_failure_500 (rawBody : String) (nowWall : Nat)
    (table : List SMSMessage) (m f b : String)
    (hx : extractFields rawBody = some (m, f, b))
    (hm : m ≠ "") (hf : f ≠ "") (hb : b ≠ "") :
    (handleSMS rawBody false nowWall table).1.response = httpError "Failed to save message" 500
    ∧ (handleSMS rawBody false nowWall table).1.logs = [LogEvent.dbSaveError]
    ∧ (handleSMS rawBody false nowWall table).2 = table := by
  rw [handleSMS_extract_some false nowWall table hx,
    validateAndSave_valid_fail nowWall table hm hf hb]
  exact ⟨rfl, rfl, rfl⟩

/-- Claim C4 witness: a fully populated request against a failing
gateway yields status 500 and an unchanged table. -/
theorem persistence_failure_500_witness :
    (handleSMS "MessageSid=a&From=b&Body=c" false 0 []).1.response.status = 500
    ∧ (handleSMS "MessageSid=a&From=b&Body=c" false 0 []).2 = ([] : List SMSMessage) := by
  obtain ⟨h1, -, h3⟩ :=
    persistence_failure_500 "MessageSid=a&From=b&Body=c" 0 [] "a" "b" "c" rfl
      (by decide) (by decide) (by decide)
  exact ⟨by rw [h1]; rfl, h3⟩

/-- Claim C5 (counterexample): `handleSMS` of `main.go` stamps the
record with `time.Now()` and never converts to UTC: on a concrete valid
request the stored `ReceivedAt` carries the Local location, which is
not UTC, so the claim that the handler sets the timestamp in UTC fails
on `main.go`. -/
theorem receivedAt_not_utc_cex :
    ((handleSMS "MessageSid=a&From=b&Body=c" true 5 []).1.attempted.map
      (fun sms => sms.ReceivedAt)) = some ⟨5, GoLoc.Local⟩
    ∧ GoLoc.Local ≠ GoLoc.UTC := by
  exact ⟨rfl, by decide⟩

/-- Claim C5 (amended): the record's `receivedAt` is always the
handler's own processing-time clock, never a client-supplied value: in
`handleSMS` (`main.go`) it equals `time.Now()` (local location, no UTC
conversion), while in the `smsHandler` variant it equals
`time.Now().UTC()` and so carries the UTC location. -/
theorem receivedAt_processing_time (rawBody : String) (dbOk : Bool) (nowWall : Nat)
    (table : List SMSMessage) :
    (∀ sms, (handleSMS rawBody dbOk nowWall table).1.attempted = some sms →
        sms.ReceivedAt = timeNow nowWall)
    ∧ (∀ sms, (smsHandler rawBody dbOk nowWall table).1.attempted = some sms →
        sms.ReceivedAt = (timeNow nowWall).utc ∧ sms.ReceivedAt.loc = GoLoc.UTC) := by
  constructor
  · intro sms hs
    cases hx : extractFields rawBody with
    | none =>
      rw [(handleSMS_extract_none dbOk nowWall table hx).2.1] at hs
      exact Option.noConfusion hs
    | some mfb =>
      obtain ⟨m, f, b⟩ := mfb
      rw [handleSMS_extract_some dbOk nowWall table hx] at hs
      by_cases hmiss : m = "" ∨ f = "" ∨ b = ""
      · rw [validateAndSave_missing dbOk nowWall table hmiss] at hs
        exact Option.noConfusion hs
      · push_neg at hmiss
        obtain ⟨hm, hf, hb⟩ := hmiss
        cases dbOk with
        | true =>
          rw [validateAndSave_valid_ok nowWall table hm hf hb] at hs
          injection hs with h
          subst h
          rfl
        | false =>
          rw [validateAndSave_valid_fail nowWall table hm hf hb] at hs
          injection hs with h
          subst h
          rfl
  · intro sms hs
    cases hp : parseForm rawBody with
    | none =>
      simp only [smsHandler, hp] at hs
      exact Option.noConfusion hs
    | some form =>
      by_cases hmiss : getValue form "From" = "" ∨ getValue form "Body" = ""
          ∨ getValue form "MessageSid" = ""
      · rw [smsHandler_missing dbOk nowWall table hp hmiss] at hs
        exact Option.noConfusion hs
      · by_cases hlen : (getValue form "Body").length > 1600
            ∨ (getValue form "From").length > 15 ∨ (getValue form "MessageSid").length > 50
        · rw [smsHandler_toolong dbOk nowWall table hp hmiss hlen] at hs
          exact Option.noConfusion hs
        · rw [smsHandler_valid dbOk nowWall table hp hmiss hlen] at hs
          cases dbOk with
          | true =>
            rw [if_pos rfl] at hs
            injection hs with h
            subst h
            exact ⟨rfl, rfl⟩
          | false =>
            rw [if_neg (by decide)] at hs
            injection hs with h
            subst h
            exact ⟨rfl, rfl⟩

/-- Claim C5 witness: on a concrete valid request, `handleSMS` stamps
`time.Now()` and `smsHandler` stamps the UTC conversion of the same
instant. -/
theorem receivedAt_processing_time_witness :
    ((handleSMS "MessageSid=a&From=b&Body=c" true 7 []).1.attempted.map
      (fun sms => sms.ReceivedAt)) = some (timeNow 7)
    ∧ ((smsHandler "MessageSid=a&From=b&Body=c" true 7 []).1.attempted.map
      (fun sms => sms.ReceivedAt)) = some ((timeNow 7).utc) := by
  obtain ⟨h1, h2⟩ := receivedAt_processing_time "MessageSid=a&From=b&Body=c" true 7 []
  have e1 : (handleSMS "MessageSid=a&From=b&Body=c" true 7 []).1.attempted
      = some ⟨"a", "b", "c", timeNow 7⟩ := rfl
  have e2 : (smsHandler "MessageSid=a&From=b&Body=c" true 7 []).1.attempted
      = some ⟨"a", "b", "c", (timeNow 7).utc⟩ := rfl
  constructor
  · rw [e1]
    exact congrArg some (h1 ⟨"a", "b", "c", timeNow 7⟩ e1)
  · rw [e2]
    exact congrArg some ((h2 ⟨"a", "b", "c", (timeNow 7).utc⟩ e2).1)

/-- Claim C6: in the `smsHandler` variant that enforces maximum
lengths, a parsed request whose body exceeds 1600, sender exceeds 15,
or identifier exceeds 50 characters is answered with status 400, no
INSERT, and an unchanged table; when all three fields are non-empty the
response is exactly the "Input length exceeded" message. -/
theorem length_limit_rejected (rawBody : String) (dbOk : Bool) (nowWall : Nat)
    (table : List SMSMessage) (form : List (String × String))
    (hp : parseForm rawBody = some form)
    (hlen : (getValue form "Body").length > 1600 ∨ (getValue form "From").length > 15
      ∨ (getValue form "MessageSid").length > 50) :
    (smsHandler rawBody dbOk nowWall table).1.response.status = 400
    ∧ (smsHandler rawBody dbOk nowWall table).1.attempted = none
    ∧ (smsHandler rawBody dbOk nowWall table).2 = table
    ∧ (getValue form "From" ≠ "" → getValue form "Body" ≠ "" →
        getValue form "MessageSid" ≠ "" →
        (smsHandler rawBody dbOk nowWall table).1.response
          = httpError "Input length exceeded" 400) := by
  by_cases hmiss : getValue form "From" = "" ∨ getValue form "Body" = ""
      ∨ getValue form "MessageSid" = ""
  · rw [smsHandler_missing dbOk nowWall table hp hmiss]
    refine ⟨rfl, rfl, rfl, ?_⟩
    intro h1 h2 h3
    rcases hmiss with h | h | h
    · exact absurd h h1
    · exact absurd h h2
    · exact absurd h h3
  · rw [smsHandler_toolong dbOk nowWall table hp hmiss hlen]
    exact ⟨rfl, rfl, rfl, fun _ _ _ => rfl⟩

/-- Claim C6 witness: a 16-character sender number is rejected with
status 400, the length message, and no write. -/
theorem length_limit_rejected_witness :
    (smsHandler "MessageSid=a&From=0123456789012345&Body=c" true 0 []).1.response
      = httpError "Input length exceeded" 400
    ∧ (smsHandler "MessageSid=a&From=0123456789012345&Body=c" true 0 []).2
      = ([] : List SMSMessage) := by
  obtain ⟨-, -, h3, h4⟩ :=
    length_limit_rejected "MessageSid=a&From=0123456789012345&Body=c" true 0 []
      [("MessageSid", "a"), ("From", "0123456789012345"), ("Body", "c")] rfl
      (Or.inr (Or.inl (by decide)))
  exact ⟨h4 (by decide) (by decide) (by decide), h3⟩

end SMSReceiver

namespace SMSReceiver

/-- The acknowledgment XML as the claim writes it: declaration and
elements flattened onto one line with no whitespace between tags. -/
def flatAck : String :=
  "<?xml version=\"1.0\" encoding=\"UTF-8\"?><Response><Message>Message received! Thank you.</Message></Response>"

/-- Claim C7 (counterexample): on a valid primary-keys request the
response body is the Go source's TwiML literal, which contains a
newline after the XML declaration and an indented `Message` element, so
it is not byte-equal to the flattened literal the claim states. -/
theorem ack_literal_whitespace_cex :
    (handleSMS "MessageSid=SM123&From=%2B15551234567&Body=Hello" true 0 []).1.response.status = 200
    ∧ (handleSMS "MessageSid=SM123&From=%2B15551234567&Body=Hello" true 0 []).1.response.body
      = twimlResponse
    ∧ twimlResponse ≠ flatAck := by
  exact ⟨rfl, rfl, by decide⟩

/-- Claim C7 (amended): for every request whose three fields are
present under the primary keys and whose insert succeeds, the stored
record equals the submitted values exactly, the status is 200, the
content type is `application/xml`, and the body is the acknowledgment
XML with the source's whitespace (newline after the declaration,
`Message` element indented on its own line). -/
theorem primary_success_response (rawBody : String) (nowWall : Nat)
    (table : List SMSMessage) (form : List (String × String))
    (hp : parseForm rawBody = some form)
    (hm : getValue form "MessageSid" ≠ "") (hf : getValue form "From" ≠ "")
    (hb : getValue form "Body" ≠ "") :
    handleSMS rawBody true nowWall table =
      (⟨⟨200, some "application/xml", twimlResponse⟩,
        some ⟨getValue form "MessageSid", getValue form "From", getValue form "Body",
          timeNow nowWall⟩,
        [LogEvent.savedSMS (getValue form "From") (getValue form "Body")]⟩,
       table ++ [⟨getValue form "MessageSid", getValue form "From", getValue form "Body",
          timeNow nowWall⟩]) := by
  have hx : extractFields rawBody
      = some (getValue form "MessageSid", getValue form "From", getValue form "Body") := by
    simp only [extractFields, hp, lookup2_of_ne _ hm, lookup2_of_ne _ hf, lookup2_of_ne _ hb]
    rw [if_neg (by simp [hm, hf, hb])]
  rw [handleSMS_extract_some true nowWall table hx,
    validateAndSave_valid_ok nowWall table hm hf hb]

/-- Claim C7 witness: the spec's primary-keys example stores
`(SM123, +15551234567, Hello)` and is acknowledged with 200 and the
TwiML body. -/
theorem primary_success_response_witness :
    (handleSMS "MessageSid=SM123&From=%2B15551234567&Body=Hello" true 3 []).1.response
      = ⟨200, some "application/xml", twimlResponse⟩
    ∧ (handleSMS "MessageSid=SM123&From=%2B15551234567&Body=Hello" true 3 []).2
      = [⟨"SM123", "+15551234567", "Hello", timeNow 3⟩] := by
  have h := primary_success_response "MessageSid=SM123&From=%2B15551234567&Body=Hello" 3 []
    [("MessageSid", "SM123"), ("From", "+15551234567"), ("Body", "Hello")] rfl
    (by decide) (by decide) (by decide)
  rw [h]
  exact ⟨rfl, rfl⟩

/-- Claim C8: persistence is not idempotent: two valid requests
carrying the same extracted triple each append their own row, whatever
the table already holds (no read-before-write, no uniqueness check, no
upsert), so the same `MessageSid` ends up in two distinct rows and both
requests are acknowledged with 200. -/
theorem duplicate_sid_two_rows (rawBody : String) (n1 n2 : Nat) (table : List SMSMessage)
    (m f b : String) (hx : extractFields rawBody = some (m, f, b))
    (hm : m ≠ "") (hf : f ≠ "") (hb : b ≠ "") :
    (handleSMS rawBody true n2 (handleSMS rawBody true n1 table).2).2
      = table ++ [⟨m, f, b, timeNow n1⟩, ⟨m, f, b, timeNow n2⟩]
    ∧ (handleSMS rawBody true n1 table).1.response.status = 200
    ∧ (handleSMS rawBody true n2 (handleSMS rawBody true n1 table).2).1.response.status = 200
    ∧ (⟨m, f, b, timeNow n1⟩ : SMSMessage).MessageSID
      = (⟨m, f, b, timeNow n2⟩ : SMSMessage).MessageSID := by
  have e1 : (handleSMS rawBody true n1 table).2 = table ++ [⟨m, f, b, timeNow n1⟩] := by
    rw [handleSMS_extract_some true n1 table hx, validateAndSave_valid_ok n1 table hm hf hb]
  have s1 : (handleSMS rawBody true n1 table).1.response.status = 200 := by
    rw [handleSMS_extract_some true n1 table hx, validateAndSave_valid_ok n1 table hm hf hb]
  have e2 : ∀ t : List SMSMessage, (handleSMS rawBody true n2 t).2 = t ++ [⟨m, f, b, timeNow n2⟩] := by
    intro t
    rw [handleSMS_extract_some true n2 t hx, validateAndSave_valid_ok n2 t hm hf hb]
  have s2 : ∀ t : List SMSMessage, (handleSMS rawBody true n2 t).1.response.status = 200 := by
    intro t
    rw [handleSMS_extract_some true n2 t hx, validateAndSave_valid_ok n2 t hm hf hb]
  refine ⟨?_, s1, s2 _, rfl⟩
  rw [e2, e1, List.append_assoc]
  rfl

/-- Claim C8 witness: submitting the same `MessageSid=SM1` twice yields
two rows with that identifier. -/
theorem duplicate_sid_two_rows_witness :
    (handleSMS "MessageSid=SM1&From=b&Body=c" true 2
        (handleSMS "MessageSid=SM1&From=b&Body=c" true 1 []).2).2
      = [⟨"SM1", "b", "c", timeNow 1⟩, ⟨"SM1", "b", "c", timeNow 2⟩] := by
  have h := duplicate_sid_two_rows "MessageSid=SM1&From=b&Body=c" 1 2 [] "SM1" "b" "c" rfl
    (by decide) (by decide) (by decide)
  exact h.1

/-- Claim C9: the secondary (nested) extraction reads exclusively from
the lowercase `body` form key.  When that key is empty or absent the
handler is exactly the validate-and-save tail on the primary lookups
(the secondary parse is skipped entirely, whatever `Body` holds), and
when additionally both `MessageSid` keys and both `From` keys are
absent the handler answers 400 "Missing required fields" with no
INSERT and an unchanged table, never re-parsing the uppercase `Body`
content. -/
theorem nested_extraction_lowercase_only (rawBody : String) (dbOk : Bool) (nowWall : Nat)
    (table : List SMSMessage) (form : List (String × String))
    (hp : parseForm rawBody = some form) (hbp : getValue form "body" = "") :
    handleSMS rawBody dbOk nowWall table =
      validateAndSave (lookup2 form "MessageSid" "messagesid") (lookup2 form "From" "from")
        (lookup2 form "Body" "body") dbOk nowWall table
    ∧ (getValue form "MessageSid" = "" → getValue form "messagesid" = "" →
        (handleSMS rawBody dbOk nowWall table).1.response
          = httpError "Missing required fields" 400
        ∧ (handleSMS rawBody dbOk nowWall table).1.attempted = none
        ∧ (handleSMS rawBody dbOk nowWall table).2 = table) := by
  have hmain : handleSMS rawBody dbOk nowWall table =
      validateAndSave (lookup2 form "MessageSid" "messagesid") (lookup2 form "From" "from")
        (lookup2 form "Body" "body") dbOk nowWall table := by
    simp only [handleSMS, hp]
    by_cases hmiss : lookup2 form "MessageSid" "messagesid" = "" ∨
        lookup2 form "From" "from" = "" ∨ lookup2 form "Body" "body" = ""
    · rw [if_pos hmiss, if_neg (by simp [hbp])]
    · rw [if_neg hmiss]
  refine ⟨hmain, ?_⟩
  intro h1 h2
  have hm : lookup2 form "MessageSid" "messagesid" = "" := by
    simp [lookup2, h1, h2]
  rw [hmain, validateAndSave_missing dbOk nowWall table (Or.inl hm), hm]
  exact ⟨rfl, rfl, rfl⟩

/-- Claim C9 witness: a request whose only field is the uppercase
`Body` holding a nested query string is rejected with 400 and no write;
the nested content is never extracted. -/
theorem nested_extraction_lowercase_only_witness :
    (handleSMS "Body=MessageSid%3DSM9%26From%3D%2B1555%26Body%3DHi" true 0 []).1.response.status
      = 400
    ∧ (handleSMS "Body=MessageSid%3DSM9%26From%3D%2B1555%26Body%3DHi" true 0 []).2
      = ([] : List SMSMessage) := by
  obtain ⟨-, h⟩ := nested_extraction_lowercase_only
    "Body=MessageSid%3DSM9%26From%3D%2B1555%26Body%3DHi" true 0 []
    [("Body", "MessageSid=SM9&From=+1555&Body=Hi")] rfl (by decide)
  obtain ⟨h1, -, h3⟩ := h (by decide) (by decide)
  exact ⟨by rw [h1]; rfl, h3⟩

/-- Helper: `handleSMS` when the primary form parse fails. -/
theorem handleSMS_parse_none {rawBody : String} (dbOk : Bool) (nowWall : Nat)
    (table : List SMSMessage) (hp : parseForm rawBody = none) :
    handleSMS rawBody dbOk nowWall table =
      (⟨httpError "Invalid form data" 400, none, [LogEvent.invalidForm]⟩, table) := by
  simp only [handleSMS, hp]

/-- Helper: `handleSMS` when the fallback is triggered and the nested
parse of the lowercase `body` value fails. -/
theorem handleSMS_nested_fail {rawBody : String} (dbOk : Bool) (nowWall : Nat)
    (table : List SMSMessage) {form : List (String × String)}
    (hp : parseForm rawBody = some form)
    (hmiss : lookup2 form "MessageSid" "messagesid" = "" ∨
      lookup2 form "From" "from" = "" ∨ lookup2 form "Body" "body" = "")
    (hbp : getValue form "body" ≠ "")
    (hq : parseForm (stripLeadingQuestion (getValue form "body")) = none) :
    handleSMS rawBody dbOk nowWall table =
      (⟨httpError "Invalid body parameter" 400, none, [LogEvent.invalidBody]⟩, table) := by
  simp only [handleSMS, hp]
  rw [if_pos hmiss, if_pos hbp, hq]

/-- Claim C10: the handler's observable outcome is a function of the
form body and the gateway's behaviour alone: two invocations on the
same raw body with the same gateway outcome produce the same response
(status, content type, and body), the same attempted-record fields
apart from `ReceivedAt`, and the same log lines; only the timestamp can
differ between the runs. -/
theorem deterministic_up_to_time (rawBody : String) (dbOk : Bool) (n1 n2 : Nat)
    (table : List SMSMessage) :
    (handleSMS rawBody dbOk n1 table).1.response = (handleSMS rawBody dbOk n2 table).1.response
    ∧ ((handleSMS rawBody dbOk n1 table).1.attempted.map
        (fun sms => (sms.MessageSID, sms.FromNumber, sms.Body)))
      = ((handleSMS rawBody dbOk n2 table).1.attempted.map
        (fun sms => (sms.MessageSID, sms.FromNumber, sms.Body)))
    ∧ (handleSMS rawBody dbOk n1 table).1.logs = (handleSMS rawBody dbOk n2 table).1.logs := by
  cases hp : parseForm rawBody with
  | none =>
    rw [handleSMS_parse_none dbOk n1 table hp, handleSMS_parse_none dbOk n2 table hp]
    exact ⟨rfl, rfl, rfl⟩
  | some form =>
    cases hx : extractFields rawBody with
    | none =>
      simp only [extractFields, hp] at hx
      by_cases hmiss : lookup2 form "MessageSid" "messagesid" = "" ∨
          lookup2 form "From" "from" = "" ∨ lookup2 form "Body" "body" = ""
      · rw [if_pos hmiss] at hx
        by_cases hbp : getValue form "body" ≠ ""
        · rw [if_pos hbp] at hx
          cases hq : parseForm (stripLeadingQuestion (getValue form "body")) with
          | none =>
            rw [handleSMS_nested_fail dbOk n1 table hp hmiss hbp hq,
              handleSMS_nested_fail dbOk n2 table hp hmiss hbp hq]
            exact ⟨rfl, rfl, rfl⟩
          | some parsed =>
            rw [hq] at hx
            exact absurd hx (by simp)
        · rw [if_neg hbp] at hx
          exact absurd hx (by simp)
      · rw [if_neg hmiss] at hx
        exact absurd hx (by simp)
    | some mfb =>
      obtain ⟨m, f, b⟩ := mfb
      rw [handleSMS_extract_some dbOk n1 table hx, handleSMS_extract_some dbOk n2 table hx]
      by_cases hmiss : m = "" ∨ f = "" ∨ b = ""
      · rw [validateAndSave_missing dbOk n1 table hmiss,
          validateAndSave_missing dbOk n2 table hmiss]
        exact ⟨rfl, rfl, rfl⟩
      · push_neg at hmiss
        obtain ⟨hm, hf, hb⟩ := hmiss
        cases dbOk with
        | true =>
          rw [validateAndSave_valid_ok n1 table hm hf hb,
            validateAndSave_valid_ok n2 table hm hf hb]
          exact ⟨rfl, rfl, rfl⟩
        | false =>
          rw [validateAndSave_valid_fail n1 table hm hf hb,
            validateAndSave_valid_fail n2 table hm hf hb]
          exact ⟨rfl, rfl, rfl⟩

end SMSReceiver
